import Mathlib

/-!
Verification of the concurrent multi-collector execution engine of
`libs/collectors/run_all.py` against its natural-language specification.

The Python module is shallowly embedded below.  Opaque collector records are
modelled as strings; wall-clock durations are modelled as rationals.  Each
collector callable is modelled by its observable behaviour: per attempt, the
outcome of `_call_with_fallbacks(fn, query, limit)` (a returned raw value or a
raised exception message), the wall-clock duration of that call, and — for the
process-isolation strategy — the resident memory of the child process.

Scheduling assumption used throughout: the worker pool has at least as many
workers as there are scheduled units (`max_workers` defaults to 8 and every
scenario in the spec's claims fits in one pool round), so every unit's task
starts immediately and completes after its own duration.  None of the verified
claims depend on queueing delay.
-/

namespace RunAllSpec

/-- Collector records are opaque to the engine; we model them as strings. -/
abbrev Rec := String

/-- Shape of the raw value returned by a collector callable, as distinguished
by the normalization code of `run_all.py` lines 242-250: Python `None`, a
`list`/`tuple`, some other iterable that is not `str`/`bytes`/`dict`, or a
scalar (anything else, including `str`/`bytes`/`dict`). -/
inductive Raw
  | rnone
  | rlist (xs : List Rec)
  | riter (xs : List Rec)
  | rscalar (x : Rec)
  deriving Repr, DecidableEq

/-- Record normalization, `run_all.py` lines 242-250: `None` becomes `[]`,
lists/tuples and other non-string iterables are materialized, anything else
becomes a one-element list. -/
def normalizeRecords : Raw → List Rec
  | .rnone => []
  | .rlist xs => xs
  | .riter xs => xs
  | .rscalar x => [x]

/-- Success metadata dict, `run_all.py` lines 252-256. -/
structure RMeta where
  attempts : Nat
  duration : Option Rat
  used_process : Bool
  deriving Repr, DecidableEq

/-- Per-unit result dict.  The Python code returns plain dicts; we record which
keys are present with `Option` fields.  Success results (line 258) carry
`records` and `meta`; failure results (lines 111, 116, 267, 284, 320, 332, 342)
carry only `error`. -/
structure UnitResult where
  ok : Bool
  records : Option (List Rec) := none
  error : Option String := none
  meta : Option RMeta := none
  deriving Repr, DecidableEq

/-- Observable outcome of one `_call_with_fallbacks(fn, query, limit)` call:
either it returns a raw value or it raises with a message. -/
inductive CallOutcome
  | ret (raw : Raw)
  | exc (msg : String)
  deriving Repr

/-- Observable behaviour of the selected callable on one attempt: the outcome
of the (fallback-adapted) call, its wall-clock duration, and the resident
memory of the child process when run under process isolation. -/
structure AttemptBehavior where
  outcome : CallOutcome
  dur : Rat
  rssMb : Rat := 0

/-- Message of `TimeoutError` raised at `run_all.py` lines 209 and 238. -/
def timeoutMsg (t : Rat) (attempt : Nat) : String :=
  "collector timed out after " ++ toString t ++ "s (attempt " ++ toString attempt ++ ")"

/-- Message of `RuntimeError` raised at `run_all.py` line 224 when the child
process died (or was killed) without sending a payload. -/
def noResponseMsg : String := "no response from collector subprocess"

/-- Message of the `MemoryError` constructed at `run_all.py` line 196 when the
parent kills a child for exceeding the memory ceiling.  Note: in the code this
exception is assigned to `last_err` but is then overwritten (see
`attemptStep`), so it never reaches the returned result. -/
def memLimitMsg (limitMb : Rat) : String :=
  "collector exceeded memory limit " ++ toString limitMb ++ "MB"

/-- Failure message at `run_all.py` line 116. -/
def noCallableMsg : String := "no public callable found"

/-- Failure message at `run_all.py` line 111: `f'import failed: {e}'`. -/
def importFailedMsg (e : String) : String := "import failed: " ++ e

/-- Message of the `ModuleNotFoundError` raised by `importlib.import_module`
for a module that does not exist (Python quotes the name; we omit the quotes). -/
def missingModuleMsg (m : String) : String := "No module named " ++ m

/-- Child-side exceptions are serialized with `traceback.format_exc()`
(`run_all.py` lines 157-159) and re-raised in the parent as
`RuntimeError(obj.get('error', ...))` at line 222; the traceback text contains
the original message. -/
def childTracebackMsg (e : String) : String :=
  "Traceback (most recent call last): " ++ e

/-- Per-module options after applying `whitelist_meta` overrides over the
batch defaults, `run_all.py` lines 135-140. -/
structure ResolvedOpts where
  modTimeout : Rat
  modRetries : Int
  modBackoff : Rat
  modUseProcesses : Bool
  modMemoryLimitMb : Rat
  deriving Repr, DecidableEq

/-- Number of attempts performed by the retry loop:
`range(1, max(1, mod_retries) + 1)` at `run_all.py` line 143. -/
def numAttempts (retries : Int) : Nat := (max 1 retries).toNat

/-- Outcome of one iteration of the retry loop of `_run_module`. -/
inductive StepOut
  /-- the attempt succeeded: the loop returns this result, having spent `t`. -/
  | done (r : UnitResult) (t : Rat)
  /-- the attempt failed: new `last_err`, backoff sleeps performed, wall time
  spent (attempt plus sleep), and whether the child was killed for memory. -/
  | failStep (newErr : Option String) (sl : List Rat) (t : Rat) (killed : Bool)

/-- One iteration of the retry loop of `_run_module` (`run_all.py` lines
144-264) for attempt number `k` with current `last_err`.

In-process strategy (lines 231-240): the callable runs on a one-worker pool and
`fut.result(timeout=mod_timeout)` is awaited.  If the call takes longer than
`mod_timeout` the attempt is a timeout (`last_err` is set unconditionally, line
238) and the loop `continue`s, skipping the `except` block — hence no backoff
sleep; leaving the inner `with ThreadPoolExecutor` block still joins the worker,
so the attempt's wall time is the full call duration.

Process-isolation strategy (lines 147-229): the parent polls the child.  If the
memory ceiling is positive and the child's resident memory exceeds it while the
child is alive, the parent terminates the child and sets
`last_err = MemoryError(...)` (line 196); the loop then falls through to the
result pipe, finds it empty, and raises
`RuntimeError('no response from collector subprocess')` (line 224), which the
outer `except` catches and assigns to `last_err` — overwriting the memory
message.  A child still alive at the deadline is terminated and, only when
`last_err` is not already set, `last_err` becomes the timeout message (lines
208-209); the loop `continue`s with no sleep.  A child-side exception comes
back as a serialized traceback and is re-raised as `RuntimeError` (line 222).

The backoff sleep (`time.sleep(mod_backoff * attempt)`, line 263) happens only
in the `except` path and only when `attempt < mod_retries`. -/
def attemptStep (o : ResolvedOpts) (beh : AttemptBehavior) (k : Nat)
    (lastErr : Option String) : StepOut :=
  if o.modUseProcesses then
    if 0 < o.modMemoryLimitMb ∧ o.modMemoryLimitMb < beh.rssMb ∧ 0 < beh.dur then
      let sl := if (k : Int) < o.modRetries then [o.modBackoff * (k : Rat)] else []
      .failStep (some noResponseMsg) sl (sl.foldr (· + ·) 0) true
    else if o.modTimeout < beh.dur then
      .failStep (if lastErr = none then some (timeoutMsg o.modTimeout k) else lastErr)
        [] o.modTimeout false
    else
      match beh.outcome with
      | .ret raw =>
          .done { ok := true, records := some (normalizeRecords raw),
                  meta := some ⟨k, some beh.dur, true⟩ } beh.dur
      | .exc m =>
          let sl := if (k : Int) < o.modRetries then [o.modBackoff * (k : Rat)] else []
          .failStep (some (childTracebackMsg m)) sl (beh.dur + sl.foldr (· + ·) 0) false
  else
    if o.modTimeout < beh.dur then
      .failStep (some (timeoutMsg o.modTimeout k)) [] beh.dur false
    else
      match beh.outcome with
      | .ret raw =>
          .done { ok := true, records := some (normalizeRecords raw),
                  meta := some ⟨k, some beh.dur, false⟩ } beh.dur
      | .exc m =>
          let sl := if (k : Int) < o.modRetries then [o.modBackoff * (k : Rat)] else []
          .failStep (some m) sl (beh.dur + sl.foldr (· + ·) 0) false

/-- Trace of one `_run_module` run: the returned per-unit result, the backoff
sleeps performed between attempts, the total wall-clock time spent, and the
attempts at which the parent killed the child for exceeding the memory
ceiling. -/
structure RunTrace where
  result : UnitResult
  sleeps : List Rat
  duration : Rat
  memKills : List Nat
  deriving Repr, DecidableEq

/-- Retry loop of `_run_module`, `run_all.py` lines 142-267.  `k` is the
current attempt number (starting at 1) and `fuel` the number of attempts still
allowed after this one, so the loop performs `fuel + 1` more attempts.  When
all attempts fail the function returns `{'ok': False, 'error': str(last_err)}`
(line 267). -/
def attemptLoop (o : ResolvedOpts) (b : Nat → AttemptBehavior) :
    Nat → Nat → Option String → RunTrace
  | k, fuel, lastErr =>
    match attemptStep o (b k) k lastErr with
    | .done r t => ⟨r, [], t, []⟩
    | .failStep newErr sl t killed =>
      let kills := if killed then [k] else []
      match fuel with
      | 0 => ⟨⟨false, none, some (newErr.getD "None"), none⟩, sl, t, kills⟩
      | n + 1 =>
        let rest := attemptLoop o b (k + 1) n newErr
        ⟨rest.result, sl ++ rest.sleeps, t + rest.duration, kills ++ rest.memKills⟩

/-- Model of one importable module: `importError = some e` means
`importlib.import_module` raises with message `e`; `candidates` are the public
callables found by `_candidate_functions` (name, per-attempt behaviour), in
`dir(module)` enumeration order. -/
structure ModuleEnv where
  importError : Option String := none
  candidates : List (String × (Nat → AttemptBehavior)) := []

/-- Batch-level defaults of `run_all_collectors` (`run_all.py` lines 93-97). -/
structure BatchDefaults where
  collectorTimeout : Rat := 10
  retries : Int := 1
  backoff : Rat := 1/10
  useProcesses : Bool := false
  deriving Repr, DecidableEq

/-- Per-module override dict inside `whitelist_meta` (`run_all.py`
lines 135-140); absent keys fall back to the batch defaults. -/
structure ModMeta where
  collectorTimeout : Option Rat := none
  retries : Option Int := none
  backoff : Option Rat := none
  useProcesses : Option Bool := none
  memoryLimitMb : Option Rat := none
  deriving Repr, DecidableEq

/-- Lookup in an association list, modelling Python dict `.get` /
`dict[key]` for the dicts the engine builds (each key written once). -/
def alistFind {α : Type} (l : List (String × α)) (k : String) : Option α :=
  (l.find? (fun p => p.1 == k)).map (·.2)

/-- Environment of one batch: the modules `pkgutil.walk_packages` would
discover, the loadable modules themselves, the batch defaults and the
`whitelist_meta` overrides. -/
structure BatchEnv where
  allModules : List String := []
  modules : List (String × ModuleEnv) := []
  defaults : BatchDefaults := {}
  whitelistMeta : Option (List (String × ModMeta)) := none

/-- Option resolution of `run_all.py` lines 135-140:
`opts = (whitelist_meta or {}).get(mod_name, {})`, then each field falls back
to the batch-level value; `memory_limit_mb` defaults to 0 (disabled). -/
def resolveOpts (wm : Option (List (String × ModMeta))) (d : BatchDefaults)
    (modName : String) : ResolvedOpts :=
  let opts : ModMeta :=
    match wm with
    | some l => (alistFind l modName).getD {}
    | none => {}
  { modTimeout := opts.collectorTimeout.getD d.collectorTimeout
    modRetries := opts.retries.getD d.retries
    modBackoff := opts.backoff.getD d.backoff
    modUseProcesses := opts.useProcesses.getD d.useProcesses
    modMemoryLimitMb := opts.memoryLimitMb.getD 0 }

/-- Priority list of conventional entry-point names, `run_all.py` lines
118-123. -/
def preferNames : List String :=
  ["fetch_channel", "fetch_subreddit_json", "search_recent", "nitter_search",
   "fetch_rss", "fetch_many", "old_reddit_top", "fetch_wayback_text",
   "latest_snapshot", "user_media", "page_posts", "multi_subreddits",
   "fetch_url", "run_search"]

/-- Entry-point selection, `run_all.py` lines 124-133: the first name of the
priority list that occurs among the candidates wins; otherwise the first
candidate; `none` when the module has no public callable. -/
def selectCallable (cands : List (String × (Nat → AttemptBehavior))) :
    Option (Nat → AttemptBehavior) :=
  match preferNames.findSome? (fun p => (cands.find? (fun c => c.1 == p)).map (·.2)) with
  | some f => some f
  | none => cands.head?.map (·.2)

/-- Embeds `_run_module` (`run_all.py` lines 104-267): import the module
(failure gives an `import failed:` result, line 111), find a public callable
(line 116), resolve the per-module options and run the retry loop. -/
def runModule (env : BatchEnv) (modName : String) : RunTrace :=
  match alistFind env.modules modName with
  | none =>
      ⟨⟨false, none, some (importFailedMsg (missingModuleMsg modName)), none⟩, [], 0, []⟩
  | some me =>
    match me.importError with
    | some e => ⟨⟨false, none, some (importFailedMsg e), none⟩, [], 0, []⟩
    | none =>
      match selectCallable me.candidates with
      | none => ⟨⟨false, none, some noCallableMsg, none⟩, [], 0, []⟩
      | some b =>
        let o := resolveOpts env.whitelistMeta env.defaults modName
        attemptLoop o b 1 (numAttempts o.modRetries - 1) none

/-- Insertion step of string sorting (Python `sorted` is lexicographic on code
points, as is the `String` order here). -/
def insertStr (s : String) : List String → List String
  | [] => [s]
  | t :: ts => if s < t then s :: t :: ts else t :: insertStr s ts

/-- Sorting used to model `sorted(...)` on module names. -/
def sortStrs : List String → List String
  | [] => []
  | s :: ss => insertStr s (sortStrs ss)

/-- Embeds `sorted(set(mods))` of `run_all.py` lines 101 and 304. -/
def pySortedSet (l : List String) : List String := sortStrs l.dedup

/-- Embeds `_discover_modules` (`run_all.py` lines 76-83).  Note the Python
truthiness test `if whitelist:`: an empty allow-list behaves like an absent
one and triggers the full `pkgutil.walk_packages` discovery. -/
def discoverModules (whitelist : Option (List String)) (allModules : List String) :
    List String :=
  match whitelist with
  | some w => if w.isEmpty then allModules else w
  | none => allModules

/-- Scheduled units: `work = [m for m in sorted(set(mods)) if not
m.endswith('.run_all')]`, `run_all.py` lines 101 and 304. -/
def workOf (whitelist : Option (List String)) (allModules : List String) :
    List String :=
  (pySortedSet (discoverModules whitelist allModules)).filter
    (fun m => !(m.endsWith ".run_all"))

/-- Failure entry written for units still in flight at the batch deadline,
`run_all.py` lines 284 and 342. -/
def timeoutFailure : UnitResult := ⟨false, none, some "timeout", none⟩

/-- Embeds `run_all_collectors` (`run_all.py` lines 86-286) as the final
result map (association list; keys unique because `work` is deduplicated).
A unit completes before the batch deadline iff its `_run_module` duration is
at most `timeout`; `timeout=None` waits for every unit.  When every unit
completes in time, `as_completed` drains normally and each future stores its
own `(mod_name, info)` pair (lines 272-274).  Otherwise `as_completed` raises
`concurrent.futures.TimeoutError` and the sweep at lines 276-284 writes, for
every submitted future, either its result (re-writing pairs already stored,
same key and value) or the `timeout` failure entry. -/
def runAllCollectors (env : BatchEnv) (whitelist : Option (List String)) :
    Option Rat → List (String × UnitResult)
  | none =>
    (workOf whitelist env.allModules).map (fun m => (m, (runModule env m).result))
  | some t =>
    if (workOf whitelist env.allModules).all
        (fun m => (runModule env m).duration ≤ t) then
      (workOf whitelist env.allModules).map (fun m => (m, (runModule env m).result))
    else
      (workOf whitelist env.allModules).map (fun m =>
        (m, if (runModule env m).duration ≤ t then (runModule env m).result
            else timeoutFailure))

/-- Wall-clock time at which `run_all_collectors` returns.  The executor is
used as a context manager (`with ... as ex:`, line 269), whose exit calls
`shutdown(wait=True)`: the call returns only after every submitted
`_run_module` task has finished, even when the batch deadline already recorded
`timeout` entries for the stragglers. -/
def runAllReturnTime (env : BatchEnv) (whitelist : Option (List String)) : Rat :=
  ((workOf whitelist env.allModules).map (fun m => (runModule env m).duration)).foldr
    max 0

/-- Embeds `_single` of `run_all_stream` (`run_all.py` lines 306-321): a
one-module `run_all_collectors` run whose batch-wide `timeout` is set to
`collector_timeout` (the batch default, not the per-module override), then a
`.get(mod_name, {'ok': False, 'error': 'internal'})` lookup. -/
def singleRun (env : BatchEnv) (modName : String) : String × UnitResult :=
  let res := runAllCollectors env (some [modName]) (some env.defaults.collectorTimeout)
  (modName, (alistFind res modName).getD ⟨false, none, some "internal", none⟩)

/-- One streaming task: unit name, the result `_single` hands back, and the
time at which the `_single` call finishes.  Because the inner
`run_all_collectors` joins its worker on exit (see `runAllReturnTime`),
`_single` finishes when `_run_module` does, even when it reports `timeout`. -/
structure StreamTask where
  name : String
  info : UnitResult
  finish : Rat
  deriving Repr, DecidableEq

/-- Insertion step for sorting stream tasks by completion time. -/
def insertTask (a : StreamTask) : List StreamTask → List StreamTask
  | [] => [a]
  | b :: bs => if a.finish < b.finish then a :: b :: bs else b :: insertTask a bs

/-- Completion order of `concurrent.futures.as_completed`: tasks sorted by
finish time (ties resolved arbitrarily; the scenarios below use distinct
finish times). -/
def sortTasks : List StreamTask → List StreamTask
  | [] => []
  | a :: ts => insertTask a (sortTasks ts)

/-- Streaming tasks of one `run_all_stream` call, in submission order. -/
def streamTasks (env : BatchEnv) (whitelist : Option (List String)) :
    List StreamTask :=
  (workOf whitelist env.allModules).map
    (fun m => ⟨m, (singleRun env m).2, (runModule env m).duration⟩)

/-- Embeds `run_all_stream` (`run_all.py` lines 289-342) as the sequence of
`(module, info)` pairs the generator yields.  While `as_completed` is being
drained (lines 326-329) finished tasks are yielded in completion order.  When
the batch deadline elapses first, `as_completed` raises and the sweep at lines
333-342 then yields, for every submitted future in submission order, its
result if it is done — re-yielding tasks already surfaced — and a `timeout`
failure entry otherwise. -/
def runAllStream (env : BatchEnv) (whitelist : Option (List String)) :
    Option Rat → List (String × UnitResult)
  | none => (sortTasks (streamTasks env whitelist)).map (fun a => (a.name, a.info))
  | some t =>
    if (streamTasks env whitelist).all (fun a => a.finish ≤ t) then
      (sortTasks (streamTasks env whitelist)).map (fun a => (a.name, a.info))
    else
      ((sortTasks ((streamTasks env whitelist).filter (fun a => a.finish ≤ t))).map
          (fun a => (a.name, a.info)))
        ++ (streamTasks env whitelist).map (fun a =>
            if a.finish ≤ t then (a.name, a.info) else (a.name, timeoutFailure))

attribute [irreducible] runModule runAllCollectors runAllReturnTime
  singleRun streamTasks runAllStream

/-- Outcome of calling a collector callable with a given number of positional
arguments: it returns a raw value, raises `TypeError` (from a signature
mismatch or from inside the body — the engine cannot tell these apart), or
raises some other exception. -/
inductive ShapeOutcome
  | ret (v : Raw)
  | typeError (msg : String)
  | raiseExc (msg : String)
  deriving Repr, DecidableEq

/-- Model of a resolved collector callable for `_call_with_fallbacks`:
`call n` is what happens when it is invoked with `n` positional arguments and
`accepts n` is the ground truth of whether its signature matches `n`
positional arguments (used only to state the spec's claim; the code never
inspects it). -/
structure PyCallable where
  call : Nat → ShapeOutcome
  accepts : Nat → Bool

/-- Error result of `_call_with_fallbacks`: the propagated exception is either
the last signature-mismatch `TypeError` (line 73, `raise last_exc`) or a
non-`TypeError` exception from inside a call. -/
inductive CallErr
  | typeErr (msg : String)
  | exc (msg : String)
  deriving Repr, DecidableEq

/-- Embeds `_call_with_fallbacks` (`run_all.py` lines 63-73): the argument
shapes `(query, limit)`, `(query,)`, `()` are tried in that order; a
`TypeError` moves on to the next shape (remembered as `last_exc`), any other
exception propagates, and after three `TypeError`s the last one is raised. -/
def callWithFallbacks (f : PyCallable) : Except CallErr Raw :=
  match f.call 2 with
  | .ret v => .ok v
  | .raiseExc m => .error (.exc m)
  | .typeError _ =>
    match f.call 1 with
    | .ret v => .ok v
    | .raiseExc m => .error (.exc m)
    | .typeError _ =>
      match f.call 0 with
      | .ret v => .ok v
      | .raiseExc m => .error (.exc m)
      | .typeError m0 => .error (.typeErr m0)

lemma insertStr_perm (s : String) (l : List String) :
    List.Perm (insertStr s l) (s :: l) := by
  induction l with
  | nil => simp [insertStr]
  | cons t ts ih =>
    unfold insertStr
    split
    · exact List.Perm.refl _
    · exact ((ih.cons t).trans (List.Perm.swap s t ts))

lemma sortStrs_perm (l : List String) : List.Perm (sortStrs l) l := by
  induction l with
  | nil => simp [sortStrs]
  | cons s ss ih =>
    unfold sortStrs
    exact (insertStr_perm s (sortStrs ss)).trans (ih.cons s)

lemma insertTask_perm (a : StreamTask) (l : List StreamTask) :
    List.Perm (insertTask a l) (a :: l) := by
  induction l with
  | nil => simp [insertTask]
  | cons b bs ih =>
    unfold insertTask
    split
    · exact List.Perm.refl _
    · exact ((ih.cons b).trans (List.Perm.swap a b bs))

lemma sortTasks_perm (l : List StreamTask) : List.Perm (sortTasks l) l := by
  induction l with
  | nil => simp [sortTasks]
  | cons a ts ih =>
    unfold sortTasks
    exact (insertTask_perm a (sortTasks ts)).trans (ih.cons a)

lemma workOf_nodup (wl : Option (List String)) (am : List String) :
    (workOf wl am).Nodup := by
  unfold workOf pySortedSet
  exact List.Nodup.filter _
    (((sortStrs_perm _).nodup_iff).mpr (List.nodup_dedup _))

lemma workOf_not_run_all {m : String} {wl : Option (List String)}
    {am : List String} (h : m ∈ workOf wl am) :
    m.endsWith ".run_all" = false := by
  unfold workOf at h
  simpa using (List.mem_filter.mp h).2

/-- Shape of the per-unit result dicts the engine hands to callers: success
results carry `records` and `meta` (and no `error`); failure results carry an
`error` string and neither `records` nor `meta`. -/
def shapeOK (r : UnitResult) : Prop :=
  (r.ok = true → r.records.isSome ∧ r.meta.isSome ∧ r.error = none)
  ∧ (r.ok = false → r.error.isSome ∧ r.records = none ∧ r.meta = none)

lemma shapeOK_timeoutFailure : shapeOK timeoutFailure := by
  constructor <;> intro h <;> simp_all [timeoutFailure]

lemma shapeOK_internalFailure :
    shapeOK ⟨false, none, some "internal", none⟩ := by
  constructor <;> intro h <;> simp_all

lemma attemptStep_done_shape (o : ResolvedOpts) (beh : AttemptBehavior) (k : Nat)
    (le : Option String) (r : UnitResult) (t : Rat)
    (h : attemptStep o beh k le = .done r t) : shapeOK r := by
  unfold attemptStep at h
  repeat' split at h
  all_goals cases h
  all_goals constructor <;> intro hh <;> simp_all

lemma shapeOK_attemptLoop (o : ResolvedOpts) (b : Nat → AttemptBehavior) :
    ∀ fuel k le, shapeOK (attemptLoop o b k fuel le).result := by
  intro fuel
  induction fuel with
  | zero =>
    intro k le
    unfold attemptLoop
    cases h : attemptStep o (b k) k le with
    | done r t => simpa using attemptStep_done_shape o (b k) k le r t h
    | failStep newErr sl t killed =>
      constructor <;> intro hh <;> simp_all
  | succ n ih =>
    intro k le
    unfold attemptLoop
    cases h : attemptStep o (b k) k le with
    | done r t => simpa using attemptStep_done_shape o (b k) k le r t h
    | failStep newErr sl t killed => simpa using ih (k + 1) newErr

lemma shapeOK_runModule (env : BatchEnv) (m : String) :
    shapeOK (runModule env m).result := by
  unfold runModule
  split
  · constructor <;> intro hh <;> simp_all
  · split
    · constructor <;> intro hh <;> simp_all
    · split
      · constructor <;> intro hh <;> simp_all
      · exact shapeOK_attemptLoop _ _ (numAttempts _ - 1) 1 none

lemma shapeOK_mem_runAll (env : BatchEnv) (wl : Option (List String))
    (t : Option Rat) : ∀ p ∈ runAllCollectors env wl t, shapeOK p.2 := by
  intro p hp
  have hmem :
      ∀ (g : String → UnitResult), (∀ m, shapeOK (g m)) →
        p ∈ (workOf wl env.allModules).map (fun m => (m, g m)) → shapeOK p.2 := by
    intro g hg hpg
    obtain ⟨m, _, rfl⟩ := List.mem_map.mp hpg
    exact hg m
  cases t with
  | none =>
    simp only [runAllCollectors] at hp
    exact hmem _ (fun m => shapeOK_runModule env m) hp
  | some t =>
    simp only [runAllCollectors] at hp
    split at hp
    · exact hmem _ (fun m => shapeOK_runModule env m) hp
    · refine hmem _ (fun m => ?_) hp
      split
      · exact shapeOK_runModule env m
      · exact shapeOK_timeoutFailure

lemma alistFind_eq_some_mem {α : Type} {l : List (String × α)} {k : String}
    {v : α} (h : alistFind l k = some v) : (k, v) ∈ l := by
  unfold alistFind at h
  cases hf : l.find? (fun q => q.1 == k) with
  | none => simp [hf] at h
  | some q =>
    have hm := List.mem_of_find?_eq_some hf
    have hq := List.find?_some hf
    simp only [hf] at h
    obtain ⟨q1, q2⟩ := q
    simp only [beq_iff_eq] at hq
    subst hq
    simp at h
    subst h
    exact hm

lemma shapeOK_singleRun (env : BatchEnv) (m : String) :
    shapeOK (singleRun env m).2 := by
  unfold singleRun
  cases h : alistFind
      (runAllCollectors env (some [m]) (some env.defaults.collectorTimeout)) m with
  | none => simpa [h] using shapeOK_internalFailure
  | some v =>
    have hv := alistFind_eq_some_mem h
    simpa [h] using
      shapeOK_mem_runAll env (some [m]) (some env.defaults.collectorTimeout) (m, v) hv

lemma streamTasks_eq (env : BatchEnv) (wl : Option (List String)) :
    streamTasks env wl
      = (workOf wl env.allModules).map
          (fun m => ⟨m, (singleRun env m).2, (runModule env m).duration⟩) := by
  unfold streamTasks
  rfl

lemma shapeOK_mem_tasks (env : BatchEnv) (wl : Option (List String)) :
    ∀ a ∈ streamTasks env wl, shapeOK a.info := by
  intro a ha
  rw [streamTasks_eq] at ha
  obtain ⟨m, hm, he⟩ := List.mem_map.mp ha
  subst he
  exact shapeOK_singleRun env m

lemma shapeOK_mem_stream (env : BatchEnv) (wl : Option (List String))
    (t : Option Rat) : ∀ p ∈ runAllStream env wl t, shapeOK p.2 := by
  intro p hp
  cases t with
  | none =>
    simp only [runAllStream] at hp
    obtain ⟨a, ha, rfl⟩ := List.mem_map.mp hp
    exact shapeOK_mem_tasks env wl a ((sortTasks_perm _).mem_iff.mp ha)
  | some t =>
    simp only [runAllStream] at hp
    split at hp
    · obtain ⟨a, ha, rfl⟩ := List.mem_map.mp hp
      exact shapeOK_mem_tasks env wl a ((sortTasks_perm _).mem_iff.mp ha)
    · rcases List.mem_append.mp hp with hl | hr
      · obtain ⟨a, ha, rfl⟩ := List.mem_map.mp hl
        exact shapeOK_mem_tasks env wl a
          (List.mem_filter.mp ((sortTasks_perm _).mem_iff.mp ha)).1
      · obtain ⟨a, ha, hpe⟩ := List.mem_map.mp hr
        split at hpe
        · subst hpe; exact shapeOK_mem_tasks env wl a ha
        · subst hpe; exact shapeOK_timeoutFailure

lemma alistFind_map_self {β : Type} (f : String → β) (l : List String) (k : String) :
    alistFind (l.map (fun x => (x, f x))) k = if k ∈ l then some (f k) else none := by
  induction l with
  | nil => simp [alistFind]
  | cons a l ih =>
    by_cases hak : a = k
    · subst hak
      rw [List.map_cons]
      unfold alistFind
      rw [List.find?_cons_of_pos _ (by simp)]
      simp
    · rw [List.map_cons]
      unfold alistFind
      rw [List.find?_cons_of_neg _ (by simp [hak])]
      have hmem : (k ∈ a :: l) ↔ (k ∈ l) := by
        rw [List.mem_cons]
        exact or_iff_right (fun h => hak h.symm)
      rw [← alistFind, ih]
      simp only [hmem]

lemma map_fst_pair {β : Type} (g : String → β) (l : List String) :
    (l.map (fun m => (m, g m))).map Prod.fst = l := by
  induction l with
  | nil => rfl
  | cons a l ih => simp [ih]

lemma runAll_keys (env : BatchEnv) (wl : Option (List String)) (t : Option Rat) :
    (runAllCollectors env wl t).map Prod.fst = workOf wl env.allModules := by
  cases t with
  | none => simp only [runAllCollectors]; exact map_fst_pair _ _
  | some t =>
    simp only [runAllCollectors]
    split <;> exact map_fst_pair _ _

lemma runAll_lookup (env : BatchEnv) (wl : Option (List String)) (t : Rat)
    (m : String) (hm : m ∈ workOf wl env.allModules) :
    alistFind (runAllCollectors env wl (some t)) m
      = some (if (runModule env m).duration ≤ t then (runModule env m).result
              else timeoutFailure) := by
  simp only [runAllCollectors]
  split
  · rename_i hall
    have hdur := of_decide_eq_true (List.all_eq_true.mp hall m hm)
    rw [alistFind_map_self, if_pos hm, if_pos hdur]
  · rw [alistFind_map_self, if_pos hm]

lemma le_foldr_max (l : List Rat) (a : Rat) (h : a ∈ l) : a ≤ l.foldr max 0 := by
  induction l with
  | nil => cases h
  | cons b bs ih =>
    rcases List.mem_cons.mp h with rfl | hm
    · exact le_max_left _ _
    · exact le_trans (ih hm) (le_max_right _ _)

lemma discoverModules_some (w am : List String) (hw : w ≠ []) :
    discoverModules (some w) am = w := by
  unfold discoverModules
  simp [hw]

lemma workOf_some_nonempty (w : List String) (am : List String) (hw : w ≠ []) :
    workOf (some w) am
      = (pySortedSet w).filter (fun m => !(m.endsWith ".run_all")) := by
  unfold workOf
  rw [discoverModules_some _ _ hw]

lemma pySortedSet_singleton (m : String) : pySortedSet [m] = [m] := rfl

lemma workOf_singleton (m : String) (am : List String)
    (hend : m.endsWith ".run_all" = false) : workOf (some [m]) am = [m] := by
  rw [workOf_some_nonempty _ _ (by simp), pySortedSet_singleton]
  simp [hend]

lemma singleRun_fit (env : BatchEnv) (m : String)
    (hend : m.endsWith ".run_all" = false)
    (hfit : (runModule env m).duration ≤ env.defaults.collectorTimeout) :
    (singleRun env m).2 = (runModule env m).result := by
  simp only [singleRun]
  rw [runAll_lookup env (some [m]) _ m
    (by rw [workOf_singleton m _ hend]; exact List.mem_singleton.mpr rfl)]
  simp [hfit]

lemma mem_streamTasks_elim (env : BatchEnv) (wl : Option (List String))
    {a : StreamTask} (ha : a ∈ streamTasks env wl) :
    a.name ∈ workOf wl env.allModules
    ∧ a.info = (singleRun env a.name).2
    ∧ a.finish = (runModule env a.name).duration := by
  rw [streamTasks_eq] at ha
  obtain ⟨x, hx, he⟩ := List.mem_map.mp ha
  subst he
  exact ⟨hx, rfl, rfl⟩

lemma stream_value (env : BatchEnv) (wl : Option (List String)) (t : Rat)
    {m : String} {r : UnitResult}
    (hb : (runModule env m).duration ≤ t)
    (h : (m, r) ∈ runAllStream env wl (some t)) :
    r = (singleRun env m).2 := by
  have hyield : ∀ a ∈ streamTasks env wl, (a.name, a.info) = (m, r) →
      r = (singleRun env m).2 := by
    intro a ha he
    injection he with hn hi
    obtain ⟨_, hinfo, _⟩ := mem_streamTasks_elim env wl ha
    rw [← hi, hinfo, hn]
  simp only [runAllStream] at h
  split at h
  · obtain ⟨a, ha, he⟩ := List.mem_map.mp h
    exact hyield a ((sortTasks_perm _).mem_iff.mp ha) he
  · rcases List.mem_append.mp h with hl | hr
    · obtain ⟨a, ha, he⟩ := List.mem_map.mp hl
      exact hyield a (List.mem_filter.mp ((sortTasks_perm _).mem_iff.mp ha)).1 he
    · obtain ⟨a, ha, he⟩ := List.mem_map.mp hr
      split at he
      · exact hyield a ha he
      · rename_i hlate
        injection he with hn hi
        obtain ⟨_, _, hfin⟩ := mem_streamTasks_elim env wl ha
        rw [hfin, hn] at hlate
        exact absurd hb hlate

lemma stream_mem_intro (env : BatchEnv) (wl : Option (List String)) (t : Rat)
    (m : String) (hm : m ∈ workOf wl env.allModules)
    (hb : (runModule env m).duration ≤ t) :
    (m, (singleRun env m).2) ∈ runAllStream env wl (some t) := by
  have htask : (⟨m, (singleRun env m).2, (runModule env m).duration⟩ : StreamTask)
      ∈ streamTasks env wl := by
    rw [streamTasks_eq]
    exact List.mem_map_of_mem _ hm
  simp only [runAllStream]
  split
  · exact List.mem_map.mpr
      ⟨⟨m, (singleRun env m).2, (runModule env m).duration⟩,
        (sortTasks_perm _).mem_iff.mpr htask, rfl⟩
  · refine List.mem_append_left _ (List.mem_map.mpr
      ⟨⟨m, (singleRun env m).2, (runModule env m).duration⟩, ?_, rfl⟩)
    refine (sortTasks_perm _).mem_iff.mpr (List.mem_filter.mpr ⟨htask, ?_⟩)
    simpa using hb

lemma attemptStep_inproc_timeout (o : ResolvedOpts) (beh : AttemptBehavior)
    (k : Nat) (le : Option String) (hproc : o.modUseProcesses = false)
    (hd : o.modTimeout < beh.dur) :
    attemptStep o beh k le
      = .failStep (some (timeoutMsg o.modTimeout k)) [] beh.dur false := by
  unfold attemptStep
  simp [hproc, hd]

lemma attemptStep_inproc_exc (o : ResolvedOpts) (beh : AttemptBehavior)
    (k : Nat) (le : Option String) (m : String)
    (hproc : o.modUseProcesses = false)
    (hd : ¬ o.modTimeout < beh.dur) (hout : beh.outcome = CallOutcome.exc m) :
    attemptStep o beh k le
      = .failStep (some m)
          (if (k : Int) < o.modRetries then [o.modBackoff * (k : Rat)] else [])
          (beh.dur
            + (if (k : Int) < o.modRetries then [o.modBackoff * (k : Rat)]
               else []).foldr (· + ·) 0)
          false := by
  unfold attemptStep
  simp [hproc, hd, hout]

lemma attemptLoop_zero_fail (o : ResolvedOpts) (b : Nat → AttemptBehavior)
    (k : Nat) (le newErr : Option String) (sl : List Rat) (t : Rat)
    (killed : Bool)
    (h : attemptStep o (b k) k le = .failStep newErr sl t killed) :
    attemptLoop o b k 0 le
      = ⟨⟨false, none, some (newErr.getD "None"), none⟩, sl, t,
          if killed then [k] else []⟩ := by
  unfold attemptLoop
  rw [h]

lemma attemptLoop_succ_fail (o : ResolvedOpts) (b : Nat → AttemptBehavior)
    (k : Nat) (le newErr : Option String) (n : Nat) (sl : List Rat) (t : Rat)
    (killed : Bool)
    (h : attemptStep o (b k) k le = .failStep newErr sl t killed) :
    attemptLoop o b k (n + 1) le
      = ⟨(attemptLoop o b (k + 1) n newErr).result,
         sl ++ (attemptLoop o b (k + 1) n newErr).sleeps,
         t + (attemptLoop o b (k + 1) n newErr).duration,
         (if killed then [k] else []) ++ (attemptLoop o b (k + 1) n newErr).memKills⟩ := by
  conv_lhs => unfold attemptLoop
  rw [h]

lemma attemptLoop_done (o : ResolvedOpts) (b : Nat → AttemptBehavior)
    (k fuel : Nat) (le : Option String) (r : UnitResult) (t : Rat)
    (h : attemptStep o (b k) k le = .done r t) :
    attemptLoop o b k fuel le = ⟨r, [], t, []⟩ := by
  unfold attemptLoop
  cases fuel <;> rw [h]

lemma attemptLoop_allExc_result (o : ResolvedOpts) (b : Nat → AttemptBehavior)
    (msg : Nat → String) (hproc : o.modUseProcesses = false)
    (hexc : ∀ j, (b j).outcome = CallOutcome.exc (msg j))
    (hdur : ∀ j, (b j).dur ≤ o.modTimeout) :
    ∀ fuel k le, (attemptLoop o b k fuel le).result
      = ⟨false, none, some (msg (k + fuel)), none⟩ := by
  intro fuel
  induction fuel with
  | zero =>
    intro k le
    rw [attemptLoop_zero_fail o b k le _ _ _ _
      (attemptStep_inproc_exc o (b k) k le (msg k) hproc (not_lt.mpr (hdur k))
        (hexc k))]
    simp
  | succ n ih =>
    intro k le
    rw [attemptLoop_succ_fail o b k le _ n _ _ _
      (attemptStep_inproc_exc o (b k) k le (msg k) hproc (not_lt.mpr (hdur k))
        (hexc k))]
    simp only [ih (k + 1)]
    rw [show k + 1 + n = k + (n + 1) by omega]

lemma attemptLoop_allExc_sleeps (o : ResolvedOpts) (b : Nat → AttemptBehavior)
    (msg : Nat → String) (hproc : o.modUseProcesses = false)
    (hexc : ∀ j, (b j).dur ≤ o.modTimeout → (b j).outcome = CallOutcome.exc (msg j)) :
    ∀ (fuel k : Nat) (le : Option String),
      1 ≤ k → (k : Int) + (fuel : Int) = max 1 o.modRetries →
      (attemptLoop o b k fuel le).sleeps
        = ((List.range' k fuel).filter
            (fun j => decide ((b j).dur ≤ o.modTimeout))).map
            (fun j => o.modBackoff * (j : Rat)) := by
  intro fuel
  induction fuel with
  | zero =>
    intro k le hk hsum
    have hgate : ¬ ((k : Int) < o.modRetries) := by
      have h1 : o.modRetries ≤ max 1 o.modRetries := le_max_right _ _
      omega
    by_cases hd : o.modTimeout < (b k).dur
    · rw [attemptLoop_zero_fail o b k le _ _ _ _
        (attemptStep_inproc_timeout o (b k) k le hproc hd)]
      simp [List.range']
    · rw [attemptLoop_zero_fail o b k le _ _ _ _
        (attemptStep_inproc_exc o (b k) k le (msg k) hproc hd
          (hexc k (not_lt.mp hd)))]
      simp [List.range', hgate]
  | succ n ih =>
    intro k le hk hsum
    have hgate : (k : Int) < o.modRetries := by
      rcases le_or_lt o.modRetries 1 with hr | hr
      · rw [max_eq_left hr] at hsum; omega
      · rw [max_eq_right (le_of_lt hr)] at hsum; omega
    by_cases hd : o.modTimeout < (b k).dur
    · rw [attemptLoop_succ_fail o b k le _ n _ _ _
        (attemptStep_inproc_timeout o (b k) k le hproc hd)]
      simp only []
      rw [ih (k + 1) (some (timeoutMsg o.modTimeout k)) (by omega) (by omega)]
      rw [List.range'_succ]
      rw [List.filter_cons_of_neg (by simpa using not_le.mpr hd)]
      simp
    · rw [attemptLoop_succ_fail o b k le _ n _ _ _
        (attemptStep_inproc_exc o (b k) k le (msg k) hproc hd
          (hexc k (not_lt.mp hd)))]
      simp only []
      rw [ih (k + 1) (some (msg k)) (by omega) (by omega)]
      rw [List.range'_succ]
      rw [List.filter_cons_of_pos (by simpa using not_lt.mp hd)]
      simp [hgate]

lemma one_le_numAttempts (r : Int) : 1 ≤ numAttempts r := by
  unfold numAttempts
  have h := Int.toNat_le_toNat (le_max_left 1 r)
  exact le_trans (by norm_num) h

lemma numAttempts_cast (r : Int) : (numAttempts r : Int) = max 1 r := by
  unfold numAttempts
  exact Int.toNat_of_nonneg (le_trans zero_le_one (le_max_left _ _))

/-! Claim theorems.  Each concrete environment below instantiates the
embedding at the inputs named by the claim under scrutiny. -/

/-- Environment with one discovered module that cannot be imported. -/
def envC1w : BatchEnv := { allModules := ["libs.collectors.files"] }

/-- C1: every unit scheduled by run_all_collectors appears exactly once as a
key of the returned map (the key list is exactly the deduplicated scheduled
work list, which is duplicate-free), and failed units — import failures, no
public callable, all attempts timed out or killed — are present as ok-false
entries carrying an error message, never omitted. -/
theorem c1_scheduled_units_exactly_once (env : BatchEnv)
    (wl : Option (List String)) (t : Option Rat) :
    (runAllCollectors env wl t).map Prod.fst = workOf wl env.allModules
    ∧ (workOf wl env.allModules).Nodup
    ∧ ∀ p ∈ runAllCollectors env wl t, p.2.ok = false → (p.2.error).isSome :=
  ⟨runAll_keys env wl t, workOf_nodup wl env.allModules,
    fun p hp hf => ((shapeOK_mem_runAll env wl t p hp).2 hf).1⟩

/-- Witness for C1 at a concrete import-failing unit. -/
theorem c1_witness :
    ((⟨false, none,
        some (importFailedMsg (missingModuleMsg "libs.collectors.files")),
        none⟩ : UnitResult)).error.isSome := by
  have h := (c1_scheduled_units_exactly_once envC1w none none).2.2
    ("libs.collectors.files",
      ⟨false, none,
        some (importFailedMsg (missingModuleMsg "libs.collectors.files")), none⟩)
  refine h ?_ rfl
  have he : runAllCollectors envC1w none none
      = [("libs.collectors.files",
          ⟨false, none,
            some (importFailedMsg (missingModuleMsg "libs.collectors.files")),
            none⟩)] := by
    with_unfolding_all rfl
  rw [he]
  exact List.mem_singleton.mpr rfl

/-- Environment with a realistic discovered-module list (no loadable modules,
so every unit resolves to an import failure). -/
def envC2 : BatchEnv :=
  { allModules := ["libs.collectors.files", "libs.collectors.run_all",
      "libs.collectors.rss", "libs.collectors.web_simple"] }

/-- C2 counterexample: with an EMPTY allow-list the result map is NOT empty —
Python's `if whitelist:` treats `[]` as absent, so the full discovery runs
(and `libs.collectors.run_all` itself is additionally excluded from the keys,
so the key set also differs from any allow-list containing such a name). -/
theorem c2_counterexample :
    (runAllCollectors envC2 (some []) (some 30)).map Prod.fst
      = ["libs.collectors.files", "libs.collectors.rss",
         "libs.collectors.web_simple"]
    ∧ ["libs.collectors.files", "libs.collectors.rss",
       "libs.collectors.web_simple"] ≠ ([] : List String) :=
  ⟨by with_unfolding_all rfl, by decide⟩

/-- C2 amended: for a NONEMPTY allow-list the key set equals the sorted,
deduplicated allow-list minus names ending in '.run_all'; an allow-listed name
that is not a loadable module still appears as an `import failed:` entry.  An
empty allow-list behaves like an absent one (full discovery). -/
theorem c2_amended_allowlist_keys (env : BatchEnv) (w : List String) (t : Rat)
    (hw : w ≠ []) (ht : 0 ≤ t) :
    (runAllCollectors env (some w) (some t)).map Prod.fst
      = (pySortedSet w).filter (fun m => !(m.endsWith ".run_all"))
    ∧ ∀ m ∈ workOf (some w) env.allModules, alistFind env.modules m = none →
        alistFind (runAllCollectors env (some w) (some t)) m
          = some ⟨false, none,
              some (importFailedMsg (missingModuleMsg m)), none⟩ := by
  constructor
  · rw [runAll_keys, workOf_some_nonempty _ _ hw]
  · intro m hm hmiss
    rw [runAll_lookup env (some w) t m hm]
    have hmod : runModule env m
        = ⟨⟨false, none, some (importFailedMsg (missingModuleMsg m)), none⟩,
            [], 0, []⟩ := by
      unfold runModule
      rw [hmiss]
    rw [hmod]
    simp [ht]

/-- Witness for the amended C2 at a nonexistent allow-listed module name. -/
theorem c2_witness :
    alistFind
        (runAllCollectors ({} : BatchEnv) (some ["libs.collectors.nope"])
          (some 30)) "libs.collectors.nope"
      = some ⟨false, none,
          some (importFailedMsg (missingModuleMsg "libs.collectors.nope")),
          none⟩ := by
  have h := (c2_amended_allowlist_keys {} ["libs.collectors.nope"] 30
    (by decide) (by norm_num)).2
  refine h _ ?_ rfl
  have hwk : workOf (some ["libs.collectors.nope"]) ({} : BatchEnv).allModules
      = ["libs.collectors.nope"] := by
    with_unfolding_all rfl
  rw [hwk]
  exact List.mem_singleton.mpr rfl

/-- Environment for C3: unit liba finishes at 1s, unit libb at 100s, well
within the per-collector deadline of 200s but past the 30s batch deadline. -/
def envC3 : BatchEnv :=
  { modules :=
      [("liba", { candidates :=
          [("fetch_rss", fun _ => ⟨.ret (.rlist ["a1"]), 1, 0⟩)] }),
       ("libb", { candidates :=
          [("fetch_rss", fun _ => ⟨.ret (.rlist ["b1"]), 100, 0⟩)] })],
    defaults := { collectorTimeout := 200 } }

/-- C3: when the batch-wide timeout elapses after liba was already yielded,
run_all_stream yields liba a SECOND time (the timeout sweep at run_all.py
lines 334-340 re-yields every completed future), refuting the exactly-once
guarantee: the code is the slip, the spec states the intent. -/
theorem c3_duplicate_yield_on_timeout :
    runAllStream envC3 (some ["liba", "libb"]) (some 30)
      = [("liba", ⟨true, some ["a1"], none, some ⟨1, some 1, false⟩⟩),
         ("liba", ⟨true, some ["a1"], none, some ⟨1, some 1, false⟩⟩),
         ("libb", timeoutFailure)]
    ∧ ((runAllStream envC3 (some ["liba", "libb"]) (some 30)).map
        Prod.fst).count "liba" = 2 :=
  ⟨by with_unfolding_all rfl, by with_unfolding_all rfl⟩

/-- Behaviour for C4: attempt 1 takes 6s (times out against the 5s
per-collector deadline), attempt 2 succeeds in 1s. -/
def behC4 : Nat → AttemptBehavior
  | 2 => ⟨.ret (.rlist ["r2"]), 1, 0⟩
  | _ => ⟨.ret (.rlist ["r1"]), 6, 0⟩

def envC4 : BatchEnv :=
  { modules := [("m", { candidates := [("fetch_rss", behC4)] })],
    defaults := { collectorTimeout := 5, retries := 2 } }

/-- C4 counterexample: with retries=2 and a first attempt that times out, the
batch orchestrator returns the successful second attempt, while run_all_stream
reports a `timeout` failure — `_single` runs the unit under an inner batch
deadline equal to collector_timeout, which the retry run exceeds. -/
theorem c4_counterexample :
    alistFind (runAllStream envC4 (some ["m"]) (some 30)) "m"
      = some timeoutFailure
    ∧ alistFind (runAllCollectors envC4 (some ["m"]) (some 30)) "m"
        = some ⟨true, some ["r2"], none, some ⟨2, some 1, false⟩⟩
    ∧ (some timeoutFailure : Option UnitResult)
        ≠ some ⟨true, some ["r2"], none, some ⟨2, some 1, false⟩⟩ :=
  ⟨by with_unfolding_all rfl, by with_unfolding_all rfl, by decide⟩

/-- C4 amended: the streaming per-unit result equals the batch per-unit result
whenever the unit's whole retry run fits within collector_timeout (the inner
batch deadline `_single` imposes) and within the batch deadline; with retries
greater than 1 or a timed-out first attempt the total can exceed
collector_timeout and the equivalence fails (see the counterexample). -/
theorem c4_amended_stream_matches_batch (env : BatchEnv)
    (wl : Option (List String)) (t : Rat) (m : String)
    (hm : m ∈ workOf wl env.allModules)
    (hfit : (runModule env m).duration ≤ env.defaults.collectorTimeout)
    (hb : (runModule env m).duration ≤ t) :
    (∀ r, (m, r) ∈ runAllStream env wl (some t) → r = (runModule env m).result)
    ∧ (m, (runModule env m).result) ∈ runAllStream env wl (some t)
    ∧ alistFind (runAllCollectors env wl (some t)) m
        = some (runModule env m).result := by
  have hend := workOf_not_run_all hm
  have hs := singleRun_fit env m hend hfit
  refine ⟨?_, ?_, ?_⟩
  · intro r hr
    rw [stream_value env wl t hb hr, hs]
  · have h := stream_mem_intro env wl t m hm hb
    rwa [hs] at h
  · rw [runAll_lookup env wl t m hm, if_pos hb]

/-- Environment for the C4 witness: a unit succeeding on the first attempt. -/
def envC4w : BatchEnv :=
  { modules := [("m", { candidates :=
      [("fetch_rss", fun _ => ⟨.ret (.rlist ["ok1"]), 1, 0⟩)] })] }

/-- Witness for the amended C4. -/
theorem c4_witness :
    ("m", (runModule envC4w "m").result)
      ∈ runAllStream envC4w (some ["m"]) (some 30) := by
  have hm : "m" ∈ workOf (some ["m"]) envC4w.allModules := by
    have h : workOf (some ["m"]) envC4w.allModules = ["m"] := by
      with_unfolding_all rfl
    rw [h]
    exact List.mem_singleton.mpr rfl
  have hd : (runModule envC4w "m").duration = 1 := by with_unfolding_all rfl
  have hct : envC4w.defaults.collectorTimeout = 10 := rfl
  exact (c4_amended_stream_matches_batch envC4w (some ["m"]) 30 "m" hm
    (by rw [hd, hct]; norm_num) (by rw [hd]; norm_num)).2.1

/-- Environment for C5: one unit whose only attempt takes 100s. -/
def envC5 : BatchEnv :=
  { modules := [("m", { candidates :=
      [("fetch_rss", fun _ => ⟨.ret (.rlist ["x"]), 100, 0⟩)] })] }

/-- C5 counterexample: the straggler is recorded as `timeout` at the 30s batch
deadline, but run_all_collectors returns only at 100s — the executor's
with-block exit performs shutdown(wait=True), joining the in-flight task, so
the claim's "returns without further waiting / abandoned, not joined" is
false. -/
theorem c5_counterexample :
    runAllCollectors envC5 (some ["m"]) (some 30) = [("m", timeoutFailure)]
    ∧ runAllReturnTime envC5 (some ["m"]) = 100
    ∧ ¬ (runAllReturnTime envC5 (some ["m"]) ≤ 30) := by
  refine ⟨by with_unfolding_all rfl, by with_unfolding_all rfl, ?_⟩
  have h : runAllReturnTime envC5 (some ["m"]) = 100 := by
    with_unfolding_all rfl
  rw [h]
  norm_num

/-- C5 amended: a unit still in flight at the batch deadline is recorded as a
failure with error message "timeout", but the orchestrator does NOT return
without waiting: the executor shutdown joins every in-flight task, so the call
returns no earlier than the slowest unit finishes. -/
theorem c5_amended_timeout_recorded_but_joined (env : BatchEnv)
    (wl : Option (List String)) (t : Rat) (m : String)
    (hm : m ∈ workOf wl env.allModules)
    (hlate : t < (runModule env m).duration) :
    alistFind (runAllCollectors env wl (some t)) m = some timeoutFailure
    ∧ (runModule env m).duration ≤ runAllReturnTime env wl := by
  constructor
  · rw [runAll_lookup env wl t m hm, if_neg (not_le.mpr hlate)]
  · unfold runAllReturnTime
    exact le_foldr_max _ _ (List.mem_map_of_mem _ hm)

/-- Witness for the amended C5. -/
theorem c5_witness :
    alistFind (runAllCollectors envC5 (some ["m"]) (some 30)) "m"
      = some timeoutFailure
    ∧ (runModule envC5 "m").duration ≤ runAllReturnTime envC5 (some ["m"]) := by
  refine c5_amended_timeout_recorded_but_joined envC5 (some ["m"]) 30 "m" ?_ ?_
  · have h : workOf (some ["m"]) envC5.allModules = ["m"] := by
      with_unfolding_all rfl
    rw [h]
    exact List.mem_singleton.mpr rfl
  · have h : (runModule envC5 "m").duration = 100 := by with_unfolding_all rfl
    rw [h]
    norm_num

/-- Environment for C6: process isolation, memory ceiling 5MB, child resident
memory 100MB while computing a 1s success. -/
def envC6 : BatchEnv :=
  { modules := [("m", { candidates :=
      [("fetch_rss", fun _ => ⟨.ret (.rlist ["ok1"]), 1, 100⟩)] })],
    defaults := { useProcesses := true },
    whitelistMeta := some [("m", { memoryLimitMb := some 5 })] }

/-- Same workload under a 200MB ceiling. -/
def envC6hi : BatchEnv :=
  { modules := [("m", { candidates :=
      [("fetch_rss", fun _ => ⟨.ret (.rlist ["ok1"]), 1, 100⟩)] })],
    defaults := { useProcesses := true },
    whitelistMeta := some [("m", { memoryLimitMb := some 200 })] }

/-- C6: the over-limit child IS killed (memKills = [1]) and the high-ceiling
run succeeds, but the reported failure is `no response from collector
subprocess`, not a message mentioning the memory limit: the
`MemoryError('collector exceeded memory limit ...')` the code assigns at the
kill (run_all.py line 196) is overwritten at line 224/259-260 when the killed
child's result pipe turns out empty.  The spec states the code's own evident
intent; the overwrite is the slip. -/
theorem c6_memkill_message_overwritten :
    (runModule envC6 "m").memKills = [1]
    ∧ (runModule envC6 "m").result = ⟨false, none, some noResponseMsg, none⟩
    ∧ noResponseMsg ≠ memLimitMsg 5
    ∧ (runModule envC6hi "m").result
        = ⟨true, some ["ok1"], none, some ⟨1, some 1, true⟩⟩ :=
  ⟨by with_unfolding_all rfl, by with_unfolding_all rfl,
    by with_unfolding_all decide, by with_unfolding_all rfl⟩

/-- Behaviour for the C7 counterexample: every attempt raises. -/
def behC7 : Nat → AttemptBehavior := fun k => ⟨.exc ("boom" ++ toString k), 1, 0⟩

def envC7 : BatchEnv :=
  { modules := [("m", { candidates := [("fetch_rss", behC7)] })],
    defaults := { retries := 2 } }

/-- C7 counterexample: with retries=2 and a callable raising on both attempts,
the returned failure has ok=false and the LAST attempt's message, but carries
NO meta at all — so `meta.attempts == N` (and the claimed duration/strategy
metadata) does not hold for failures; only success results carry `meta`
(run_all.py line 267 vs line 258). -/
theorem c7_counterexample :
    (runModule envC7 "m").result.ok = false
    ∧ (runModule envC7 "m").result.error = some "boom2"
    ∧ (runModule envC7 "m").result.meta = none :=
  ⟨by with_unfolding_all rfl, by with_unfolding_all rfl,
    by with_unfolding_all rfl⟩

/-- C7 amended: for a unit whose callable raises on every attempt (in-process
strategy, each attempt within its deadline) and retries = N, the retry loop
performs max(1, N) attempts and returns ok=false with the LAST attempt's error
message; the failure result carries no meta (no attempt count, duration or
strategy fields). -/
theorem c7_amended_failure_carries_no_meta (o : ResolvedOpts)
    (b : Nat → AttemptBehavior) (msg : Nat → String)
    (hproc : o.modUseProcesses = false)
    (hexc : ∀ j, (b j).outcome = CallOutcome.exc (msg j))
    (hdur : ∀ j, (b j).dur ≤ o.modTimeout) :
    (attemptLoop o b 1 (numAttempts o.modRetries - 1) none).result
      = ⟨false, none, some (msg (numAttempts o.modRetries)), none⟩ := by
  rw [attemptLoop_allExc_result o b msg hproc hexc hdur
    (numAttempts o.modRetries - 1) 1 none]
  rw [show 1 + (numAttempts o.modRetries - 1) = numAttempts o.modRetries by
    have := one_le_numAttempts o.modRetries
    omega]

/-- Witness for the amended C7. -/
theorem c7_witness :
    (attemptLoop ⟨10, 3, 1/10, false, 0⟩
        (fun k => ⟨CallOutcome.exc ("e" ++ toString k), 1, 0⟩) 1
        (numAttempts (⟨10, 3, 1/10, false, 0⟩ : ResolvedOpts).modRetries - 1)
        none).result
      = ⟨false, none,
          some ("e" ++ toString
            (numAttempts (⟨10, 3, 1/10, false, 0⟩ : ResolvedOpts).modRetries)),
          none⟩ :=
  c7_amended_failure_carries_no_meta ⟨10, 3, 1/10, false, 0⟩
    (fun k => ⟨CallOutcome.exc ("e" ++ toString k), 1, 0⟩)
    (fun k => "e" ++ toString k) rfl (fun _ => rfl) (fun _ => by norm_num)

/-- Callable for the C8 counterexample: its signature matches two positional
arguments, but its body raises a TypeError; the one-argument shape returns. -/
def fC8 : PyCallable :=
  { call := fun n =>
      if n == 2 then .typeError "unsupported operand type"
      else if n == 1 then .ret (.rlist ["v1"])
      else .typeError "too few arguments",
    accepts := fun n => n == 2 }

/-- C8 counterexample: a TypeError raised INSIDE the correctly-matched
two-argument call does not propagate — `_call_with_fallbacks` catches every
TypeError (run_all.py line 70) and tries the next shape, here returning the
one-argument result instead. -/
theorem c8_counterexample :
    fC8.accepts 2 = true
    ∧ fC8.call 2 = .typeError "unsupported operand type"
    ∧ callWithFallbacks fC8 = .ok (.rlist ["v1"]) :=
  ⟨rfl, rfl, rfl⟩

/-- C8 amended: the shapes (query, limit), (query,), () are tried in exactly
that order; the first call that does not raise TypeError is used; an error
other than TypeError raised inside a call propagates immediately; a TypeError
raised inside a correctly-matched call is indistinguishable from a signature
mismatch and causes the next shape to be tried, the LAST TypeError being
raised after all three shapes fail. -/
theorem c8_amended_fallback_order (f : PyCallable) :
    (∀ v, f.call 2 = .ret v → callWithFallbacks f = .ok v)
    ∧ (∀ m, f.call 2 = .raiseExc m → callWithFallbacks f = .error (.exc m))
    ∧ (∀ m2 v, f.call 2 = .typeError m2 → f.call 1 = .ret v →
        callWithFallbacks f = .ok v)
    ∧ (∀ m2 m, f.call 2 = .typeError m2 → f.call 1 = .raiseExc m →
        callWithFallbacks f = .error (.exc m))
    ∧ (∀ m2 m1 v, f.call 2 = .typeError m2 → f.call 1 = .typeError m1 →
        f.call 0 = .ret v → callWithFallbacks f = .ok v)
    ∧ (∀ m2 m1 m, f.call 2 = .typeError m2 → f.call 1 = .typeError m1 →
        f.call 0 = .raiseExc m → callWithFallbacks f = .error (.exc m))
    ∧ (∀ m2 m1 m0, f.call 2 = .typeError m2 → f.call 1 = .typeError m1 →
        f.call 0 = .typeError m0 →
        callWithFallbacks f = .error (.typeErr m0)) := by
  unfold callWithFallbacks
  refine ⟨?_, ?_, ?_, ?_, ?_, ?_, ?_⟩ <;> intros <;> simp_all

/-- Callable for the C8 witness: a non-TypeError error inside the
two-argument call. -/
def fC8w : PyCallable :=
  { call := fun n =>
      if n == 2 then .raiseExc "inner failure" else .typeError "mismatch",
    accepts := fun n => n == 2 }

/-- Witness for the amended C8: the in-call error propagates. -/
theorem c8_witness :
    callWithFallbacks fC8w = .error (.exc "inner failure") :=
  (c8_amended_fallback_order fC8w).2.1 "inner failure" rfl

/-- Behaviour for the C9 counterexample: attempt 1 times out (20s against a
10s deadline), attempt 2 succeeds. -/
def behC9 : Nat → AttemptBehavior
  | 2 => ⟨.ret (.rlist ["ok2"]), 1, 0⟩
  | _ => ⟨.ret (.rlist ["late"]), 20, 0⟩

def envC9 : BatchEnv :=
  { modules := [("m", { candidates := [("fetch_rss", behC9)] })],
    defaults := { retries := 2, backoff := 1/2 } }

/-- C9 counterexample: two consecutive attempts ran (the result records
attempts = 2), the first failed with a timeout, yet NO backoff sleep happened
— the timeout path `continue`s (run_all.py line 240) before the `except` block
that sleeps, so the claimed "sleeps backoff * attempt_number ... regardless of
... a timeout" is false. -/
theorem c9_counterexample :
    (runModule envC9 "m").sleeps = []
    ∧ (runModule envC9 "m").result.meta = some ⟨2, some 1, false⟩ :=
  ⟨by with_unfolding_all rfl, by with_unfolding_all rfl⟩

/-- C9 amended: in an all-failing in-process retry run, the backoff sleeps are
exactly backoff * k for those non-final attempts k that failed with an in-call
exception; after a timed-out attempt the next attempt starts immediately with
no sleep (and no sleep follows the last attempt). -/
theorem c9_amended_backoff_only_after_exceptions (o : ResolvedOpts)
    (b : Nat → AttemptBehavior) (msg : Nat → String)
    (hproc : o.modUseProcesses = false)
    (hexc : ∀ j, (b j).dur ≤ o.modTimeout →
      (b j).outcome = CallOutcome.exc (msg j)) :
    (attemptLoop o b 1 (numAttempts o.modRetries - 1) none).sleeps
      = ((List.range' 1 (numAttempts o.modRetries - 1)).filter
          (fun j => decide ((b j).dur ≤ o.modTimeout))).map
          (fun j => o.modBackoff * (j : Rat)) := by
  apply attemptLoop_allExc_sleeps o b msg hproc hexc
  · exact le_refl 1
  · have h1 := one_le_numAttempts o.modRetries
    have h2 := numAttempts_cast o.modRetries
    omega

/-- Options and behaviour for the C9 witness: three attempts, each raising
within its deadline. -/
def oC9w : ResolvedOpts := ⟨10, 3, 1/2, false, 0⟩

def bC9w : Nat → AttemptBehavior := fun _ => ⟨CallOutcome.exc "boom", 1, 0⟩

/-- Witness for the amended C9. -/
theorem c9_witness :
    (attemptLoop oC9w bC9w 1 (numAttempts oC9w.modRetries - 1) none).sleeps
      = ((List.range' 1 (numAttempts oC9w.modRetries - 1)).filter
          (fun j => decide ((bC9w j).dur ≤ oC9w.modTimeout))).map
          (fun j => oC9w.modBackoff * (j : Rat)) :=
  c9_amended_backoff_only_after_exceptions oC9w bC9w (fun _ => "boom") rfl
    (fun _ _ => rfl)

/-- Environment for the C10 witness. -/
def envC10w : BatchEnv := { allModules := ["libs.collectors.rss"] }

/-- C10: every per-unit result returned by run_all_collectors or yielded by
run_all_stream has the key shape of the code's dicts: ok=true results carry
records and meta (and no error); ok=false results carry an error string and
neither records nor meta. -/
theorem c10_result_shape (env : BatchEnv) (wl : Option (List String))
    (t : Option Rat) :
    (∀ p ∈ runAllCollectors env wl t, shapeOK p.2)
    ∧ (∀ p ∈ runAllStream env wl t, shapeOK p.2) :=
  ⟨shapeOK_mem_runAll env wl t, shapeOK_mem_stream env wl t⟩

/-- Witness for C10 at a concrete import-failure entry. -/
theorem c10_witness :
    shapeOK (⟨false, none,
      some (importFailedMsg (missingModuleMsg "libs.collectors.rss")),
      none⟩ : UnitResult) := by
  have h := (c10_result_shape envC10w none none).1
  refine h ("libs.collectors.rss", _) ?_
  have he : runAllCollectors envC10w none none
      = [("libs.collectors.rss",
          ⟨false, none,
            some (importFailedMsg (missingModuleMsg "libs.collectors.rss")),
            none⟩)] := by
    with_unfolding_all rfl
  rw [he]
  exact List.mem_singleton.mpr rfl

end RunAllSpec
